import Mathlib

/-!
Verification development for the ITI trainee scraping dashboard
(`py_scripts/scrape/scrape_category.py`, `scrape_districts.py`,
`scrape_cits_certified.py`). The Python scrape core is shallowly embedded:
a rendered table row is a list of cell texts, the browser driver is a
stream of read outcomes, and the `while` loops of the source become
fuel-indexed recursive functions. Machine behaviour of the external
libraries (pandas slicing/dedup, Python `len`, BeautifulSoup traversal)
is embedded by its documented semantics where the source calls into it.
-/

/-- A rendered table record: the list of its cell texts. -/
abbrev Row : Type := List String

/-! ## pandas `drop_duplicates` (keep="first")
`df.drop_duplicates()` keeps the first occurrence of every full-row value.
-/

/-- Helper for `dropDup`: `seen` holds the row values already emitted. -/
def dropDupAux {α : Type} [DecidableEq α] : List α → List α → List α
  | _, [] => []
  | seen, a :: rest =>
    if a ∈ seen then dropDupAux seen rest else a :: dropDupAux (a :: seen) rest

/-- pandas `DataFrame.drop_duplicates()`: keep the first occurrence of each
full-row value, preserving order. -/
def dropDup {α : Type} [DecidableEq α] (l : List α) : List α := dropDupAux [] l

/-! ## The visible-row read (`extract_visible_rows`)
Each successful read takes the rendered rows, strips cell 0 of every row
(`cells[1:]`), and drops the row at visible index 0 (`extracted_data[1:]`). -/

/-- Post-processing of one successful read in `extract_visible_rows`: every
row loses its first cell, and the first (sentinel/header) row is dropped. -/
def pyExtract (rows : List (List String)) : List Row :=
  (rows.map (fun r => r.drop 1)).drop 1

/-- Python exceptions the embedded fragments can raise. `skip` is the
worker's own `Exception('Skipping this ... combination...')`. -/
inductive PyExn : Type where
  | skip
  | typeError
  | timeout
  | stale
  | other
  deriving DecidableEq

/-- Python `len(x)` where `x` is the value returned by
`extract_visible_rows`: defined on a list, a `TypeError` on `None`. -/
def pyLen (x : Option (List Row)) : Except PyExn Nat :=
  match x with
  | none => Except.error PyExn.typeError
  | some l => Except.ok l.length

/-- pandas `pd.DataFrame(data, columns=...)` on the values `scrape_data`
feeds it: a list of rows gives that table, and `data=None` (the value
`extract_visible_rows` returns when every retry went stale) gives an empty
frame, not an error. -/
def pdDataFrame (x : Option (List Row)) : Except PyExn (List Row) :=
  match x with
  | none => Except.ok []
  | some rs => Except.ok rs

/-- pandas `df.iloc[-n:]` for a frame of rows: the last `n` rows, except
that `-0` is `0`, so `n = 0` slices the whole frame from the start. -/
def ilocTail (df : List Row) (n : Nat) : List Row :=
  if n = 0 then df else df.drop (df.length - n)

/-- The stall test of `scrape_data`'s loop:
`not df.empty and df.iloc[-len(new_df):].reset_index(drop=True).equals(new_df)`. -/
abbrev stallCond (df w : List Row) : Prop :=
  df ≠ [] ∧ ilocTail df w.length = w

/-- How one call of `scrape_data` ends: `done df` is a normal return of the
accumulated frame; `exn` is an exception inside its `try` (the function then
logs and returns `None`). -/
inductive ScrapeResult : Type where
  | done (df : List Row)
  | exn
  deriving DecidableEq

/-- The window `scrape_data` appends at read `k`: the processed read when
the read succeeded, the empty frame when `extract_visible_rows` gave `None`. -/
def windowOf (raw : Nat → Option (List (List String))) (k : Nat) : List Row :=
  match pdDataFrame ((raw k).map pyExtract) with
  | Except.ok w => w
  | Except.error _ => []

/-- The accumulation loop of `scrape_data`, fuel-indexed. `raw k` is what
`extract_visible_rows` sees at read `k` (`none` = all five attempts went
stale, so the read returned `None`); `scroll k` is what
`driver.find_elements(...)` returns for the scroll at step `k` (an empty
list makes `[-1]` raise `IndexError`, caught by the outer `except`).
The loop body computes the stall test against the old frame, decrements or
resets the retry budget, concatenates and deduplicates, then scrolls. -/
def scrapeGo (raw : Nat → Option (List (List String)))
    (scroll : Nat → List (List String)) :
    Nat → Nat → List Row → Nat → Option ScrapeResult
  | 0, _, _, _ => none
  | fuel + 1, k, df, retries =>
    if retries = 0 then some (ScrapeResult.done df)
    else
      match pdDataFrame ((raw k).map pyExtract) with
      | Except.error _ => some ScrapeResult.exn
      | Except.ok w =>
        let retries' := if stallCond df w then retries - 1 else 5
        let df' := dropDup (df ++ w)
        if scroll k = [] then some ScrapeResult.exn
        else scrapeGo raw scroll fuel (k + 1) df' retries'

/-- One full run of `scrape_data`: empty frame, retry budget 5, reads
starting at index 0. `none` means the given fuel was not enough — the loop
is still running. -/
def scrapeRun (raw : Nat → Option (List (List String)))
    (scroll : Nat → List (List String)) (fuel : Nat) : Option ScrapeResult :=
  scrapeGo raw scroll fuel 0 [] 5

/-- The save step of `parallel_scrape_over_categories`: append the constant
`State`, `Category`, `Year` columns to every record, then
`drop_duplicates` again before `to_csv`. -/
def finalizeDf (df : List Row) (state category : String) (year : Nat) : List Row :=
  dropDup (df.map (fun r => r ++ [state, category, toString year]))

/-! ## The retry loop of `extract_visible_rows`
`retries = 5; while retries > 0: try: ...; return extracted_data[1:]
except StaleElementReferenceException: retries -= 1` — and `None` when the
loop falls through. `attempts k` is the outcome of attempt `k`: `none`
stands for a `StaleElementReferenceException`, `some rows` for a successful
read of the rendered rows. -/

/-- The body of `extract_visible_rows`' retry loop: `retries` attempts left,
next attempt index `k`. -/
def extractAttempts (attempts : Nat → Option (List (List String))) :
    Nat → Nat → Option (List Row)
  | 0, _ => none
  | retries + 1, k =>
    match attempts k with
    | some rows => some (pyExtract rows)
    | none => extractAttempts attempts retries (k + 1)

/-- `extract_visible_rows`: up to 5 read attempts, first attempt at index 0;
`None` when all five went stale. -/
def extract_visible_rows (attempts : Nat → Option (List (List String))) :
    Option (List Row) :=
  extractAttempts attempts 5 0

/-! ## Filter-selection protocols
`select_option_from_dropdown` performs three UI interactions (open the
dropdown, wait for and click the option, close the dropdown) with no
exception handler of its own. `search_select_from_dropdown` performs four
(open, type the search text, wait for and click the option, close) inside
`try: ... except (ElementClickInterceptedException, NoSuchElementException,
TimeoutException): log`. `acts i` is the outcome of the `i`-th interaction
of the sequence: `none` = it succeeded, `some e` = it raised `e`. -/

/-- Selenium errors a dropdown interaction can raise. -/
inductive UIError : Type where
  | timeout
  | noSuchElement
  | clickIntercepted
  | stale
  deriving DecidableEq

/-- The exception classes named by `search_select_from_dropdown`'s `except`
clause: `ElementClickInterceptedException`, `NoSuchElementException`,
`TimeoutException`. `StaleElementReferenceException` is not among them. -/
def caughtBySearchSelect (e : UIError) : Bool :=
  match e with
  | UIError.clickIntercepted => true
  | UIError.noSuchElement => true
  | UIError.timeout => true
  | UIError.stale => false

/-- `select_option_from_dropdown`: open, select, close — the first failing
interaction raises to the caller, since the function has no handler. -/
def select_option_from_dropdown (acts : Nat → Option UIError) : Except UIError Unit :=
  match acts 0 with
  | some e => Except.error e
  | none =>
    match acts 1 with
    | some e => Except.error e
    | none =>
      match acts 2 with
      | some e => Except.error e
      | none => Except.ok ()

/-- The `try` body of `search_select_from_dropdown`: open, send the search
keys, select the match, close. -/
def searchSelectBody (acts : Nat → Option UIError) : Except UIError Unit :=
  match acts 0 with
  | some e => Except.error e
  | none =>
    match acts 1 with
    | some e => Except.error e
    | none =>
      match acts 2 with
      | some e => Except.error e
      | none =>
        match acts 3 with
        | some e => Except.error e
        | none => Except.ok ()

/-- `search_select_from_dropdown`: the body under its `except` clause, which
catches and logs exactly the three listed exception classes. -/
def search_select_from_dropdown (acts : Nat → Option UIError) : Except UIError Unit :=
  match searchSelectBody acts with
  | Except.ok _ => Except.ok ()
  | Except.error e => if caughtBySearchSelect e then Except.ok () else Except.error e

/-! ## The worker body of `parallel_scrape_over_categories`
`try:` navigation + filter selection, the zero-row visibility check
(`if len(extract_visible_rows(driver)) == 0: ... raise Exception('Skipping
...')`), `scrape_data`, column appends, `to_csv`; `except Exception as e:`
log; `finally:` `driver.quit()` and `with lock: progress[key] += 1`. -/

/-- Terminal state of one WorkUnit, as the spec names them. -/
inductive UnitOutcome : Type where
  | success
  | emptySkipped
  | failed
  deriving DecidableEq

/-- What one worker's environment does at each step of the body:
`setupErr` — an exception during navigation / dropdown setup / filter
selection (or `none`); `firstVisible` — what `extract_visible_rows` returns
at the zero-row check; `scrapeRes` — how `scrape_data`'s `try` ends (`exn`
means it returned `None`, so `df['State'] = state` then raises a
`TypeError`); `saveErr` — an exception while writing the CSV. -/
structure WorkerEnv : Type where
  setupErr : Option PyExn
  firstVisible : Option (List Row)
  scrapeRes : ScrapeResult
  saveErr : Option PyExn
  deriving DecidableEq

/-- Observable effects of one worker run on shared state. -/
structure WorkerEffects : Type where
  outcome : UnitOutcome
  scrapeCalled : Bool
  saved : Option (List Row)
  driverQuit : Bool
  progressIncrements : Nat
  incrementUnderLock : Bool
  deriving DecidableEq

/-- The `try` body of the worker, up to and including `to_csv`: the value it
returns is the finalized frame that was saved; an `Except.error` is the
exception that reached the worker's `except` clause. -/
def workerBody (state category : String) (year : Nat) (env : WorkerEnv) :
    Except PyExn (List Row) :=
  match env.setupErr with
  | some e => Except.error e
  | none =>
    match pyLen env.firstVisible with
    | Except.error e => Except.error e
    | Except.ok n =>
      if n = 0 then Except.error PyExn.skip
      else
        match env.scrapeRes with
        | ScrapeResult.exn => Except.error PyExn.typeError
        | ScrapeResult.done df =>
          match env.saveErr with
          | some e => Except.error e
          | none => Except.ok (finalizeDf df state category year)

/-- Whether the body reaches the `scrape_data` call: setup succeeded and the
zero-row visibility check saw a nonempty read. -/
def scrapeInvoked (env : WorkerEnv) : Bool :=
  match env.setupErr with
  | some _ => false
  | none =>
    match env.firstVisible with
    | none => false
    | some v => !(decide (v.length = 0))

/-- The whole worker as the pool sees it: the body, then `except Exception`
(which catches every exception and only logs it), then the `finally` block,
which always quits the driver and increments this unit's progress entry
under the lock. An `Except.error` result would be an exception escaping to
the pool. -/
def poolWorker (state category : String) (year : Nat) (env : WorkerEnv) :
    Except PyExn WorkerEffects :=
  let handled : UnitOutcome × Option (List Row) :=
    match workerBody state category year env with
    | Except.ok df => (UnitOutcome.success, some df)
    | Except.error PyExn.skip => (UnitOutcome.emptySkipped, none)
    | Except.error _ => (UnitOutcome.failed, none)
  Except.ok
    { outcome := handled.1
      scrapeCalled := scrapeInvoked env
      saved := handled.2
      driverQuit := true
      progressIncrements := 1
      incrementUnderLock := true }

/-! ## The scheduler of `scrape_category.py`'s `__main__`
`progress = manager.dict({(state, category, year): 0 for ...})`;
`total_tasks = len(states) * len(categories) * len(years)`; `Pool(5)` +
`starmap` over the same triple comprehension; the monitor loop
`while sum(progress.values()) < total_tasks`. -/

/-- One WorkUnit key: a `(state, category, year)` triple. -/
abbrev UnitKey : Type := String × String × Nat

/-- The list comprehension `[(state, category, year) for state in states for
category in categories for year in years]` — the Cartesian product in that
order, used both to seed the progress dict and as the `starmap` argument. -/
def workUnits (states categories : List String) (years : List Nat) : List UnitKey :=
  states.flatMap (fun s =>
    categories.flatMap (fun c => years.map (fun y => (s, c, y))))

/-- The progress dict seeded with a zero entry per unit. -/
def seedProgress (units : List UnitKey) : List (UnitKey × Nat) :=
  units.map (fun u => (u, 0))

/-- `progress[key] += 1`: a single-key increment of the shared dict. -/
def bumpProgress (m : List (UnitKey × Nat)) (k : UnitKey) : List (UnitKey × Nat) :=
  m.map (fun e => if e.1 = k then (e.1, e.2 + 1) else e)

/-- `progress[key]`: the value of the entry for `k`, if any. -/
def lookupProgress (m : List (UnitKey × Nat)) (k : UnitKey) : Option Nat :=
  match m.find? (fun e => decide (e.1 = k)) with
  | some e => some e.2
  | none => none

/-- `sum(progress.values())`. -/
def progressSum (m : List (UnitKey × Nat)) : Nat :=
  (m.map (fun e => e.2)).sum

/-- The monitor loop's continuation test,
`sum(progress.values()) < total_tasks`. -/
def monitorContinues (m : List (UnitKey × Nat)) (totalTasks : Nat) : Bool :=
  decide (progressSum m < totalTasks)

/-! ## The completeness checkers
`scrape_districts.py` compares `len(df)` with the displayed "Admitted
Students" card (`get_expected_data`: join the comma-split text, `int(...)`);
on mismatch it logs a warning and writes a three-row log frame to
`improper_data/{year}/...csv`, then writes the normal CSV either way.
`scrape_cits_certified.py`'s `scrape_data` compares three column sums with
the footer row (`summations`) after stripping commas; each mismatching
column logs a warning and writes the whole frame to that column's
`*_improper_{state}.csv`, and the frame is returned either way. -/

/-- Python `''.join(text.split(','))` / `x.replace(',', '')`: the display
text with its thousands separators removed. Joining the comma-split pieces
is the same as deleting every comma character, which is how it is computed
here. -/
def stripThousands (s : String) : String :=
  String.mk (s.data.filter (fun c => c ≠ ','))

/-- Python `int(s)` / `float(s)` on the plain digit strings the dashboard
displays (the only shape the scrapers feed them after comma stripping;
`int(...)` raises on anything else, which the embedding does not model):
the decimal value of the digits. -/
def pyInt (s : String) : Int :=
  if s.data ≠ [] ∧ s.data.all (fun c => c.isDigit) then
    Int.ofNat (s.data.foldl (fun n c => n * 10 + (c.toNat - 48)) 0)
  else 0

/-- `get_expected_data` of `scrape_districts.py`: the card text, separators
stripped, read as an integer. -/
def get_expected_data (cardText : String) : Int :=
  pyInt (stripThousands cardText)

/-- What the district worker's completeness check leaves behind:
whether it warned, the rows of the `improper_data` file if one was written
(the three-row log frame `[key, len(df), expected]`), and the rows written
to the normal output CSV. -/
structure DistrictsOutcome : Type where
  warned : Bool
  improperFile : Option (List (List String))
  savedFile : List Row
  deriving DecidableEq

/-- Lines 387–397 of `scrape_districts.py`: `if len(df) != expected_data:`
warn and write the log frame to `improper_data/...`; then (either way)
write `df` to the normal output path. `key` is the
`f'{year}_{state}_{district}'` tag of the log's first row. -/
def districtsFinish (key : String) (df : List Row) (cardText : String) :
    DistrictsOutcome :=
  let expected := get_expected_data cardText
  if (df.length : Int) ≠ expected then
    { warned := true
      improperFile := some [[key], [toString df.length], [toString expected]]
      savedFile := df }
  else
    { warned := false
      improperFile := none
      savedFile := df }

/-- `pd.to_numeric` on a display cell of the instructor table: the embedded
columns (`Total_Units`, `Total_Post_Sanctioned`, `Total_Position_Filled`)
hold integral numerals. -/
def pyToNumeric (s : String) : Int :=
  pyInt s

/-- `df[col].sum()` for the column at cell index `i`. -/
def colSum (df : List Row) (i : Nat) : Int :=
  (df.map (fun r => pyToNumeric (r.getD i ""))).sum

/-- `float(summations[i].replace(',', ''))` for the footer row of the
instructor table (integral display values). -/
def footerValue (summ : List String) (i : Nat) : Int :=
  pyInt (stripThousands (summ.getD i ""))

/-- What the per-column completeness check of `scrape_cits_certified.py`
leaves behind: one flag per checked column, the frames written to the
flagged (`*_improper_*.csv`) files, and the returned frame. -/
structure CitsOutcome : Type where
  unitsFlag : Bool
  postsFlag : Bool
  filledFlag : Bool
  improperFiles : List (List Row)
  result : List Row
  deriving DecidableEq

/-- Lines 251–267 of `scrape_cits_certified.py`: compare the sums of columns
4, 5, 6 (`Total_Units`, `Total_Post_Sanctioned`, `Total_Position_Filled`)
with footer entries 3, 4, 5; each mismatch warns and writes `df` to that
column's improper file; `df` is returned regardless. -/
def citsFinish (df : List Row) (summ : List String) : CitsOutcome :=
  let f1 : Bool := decide (colSum df 4 ≠ footerValue summ 3)
  let f2 : Bool := decide (colSum df 5 ≠ footerValue summ 4)
  let f3 : Bool := decide (colSum df 6 ≠ footerValue summ 5)
  { unitsFlag := f1
    postsFlag := f2
    filledFlag := f3
    improperFiles :=
      (if f1 then [df] else []) ++ (if f2 then [df] else []) ++
        (if f3 then [df] else [])
    result := df }

/-! ## The locator resolver (`get_xpath`)
A parsed markup snapshot is a tree of tags. An element handed to
`get_xpath` is addressed by its child-index path from the document node (the
BeautifulSoup object itself, whose name never enters the path). The Python
loop walks `child.parents` upward collecting one component per ancestor
step and reverses; the embedding computes the same components top-down
along the path. `parent.find_all(child.name, recursive=False)` filters the
direct children by tag name, and `siblings.index(child)` is the position of
the first sibling equal to `child` (BeautifulSoup tags compare
structurally). -/

/-- A parsed markup tag: its name and its direct children. -/
inductive Tag : Type where
  | mk : String → List Tag → Tag

/-- Tag name accessor. -/
def Tag.name : Tag → String
  | Tag.mk n _ => n

/-- Direct children accessor. -/
def Tag.children : Tag → List Tag
  | Tag.mk _ c => c

mutual

/-- Structural equality of tags, as BeautifulSoup's `==` compares them. -/
def Tag.decEq : (a b : Tag) → Decidable (a = b)
  | Tag.mk n cs, Tag.mk m ds =>
    match String.decEq n m with
    | Decidable.isFalse h => Decidable.isFalse (fun he => by cases he; exact h rfl)
    | Decidable.isTrue hn =>
      match Tag.decEqList cs ds with
      | Decidable.isTrue hc => Decidable.isTrue (by rw [hn, hc])
      | Decidable.isFalse h => Decidable.isFalse (fun he => by cases he; exact h rfl)

/-- Structural equality of child lists. -/
def Tag.decEqList : (as bs : List Tag) → Decidable (as = bs)
  | [], [] => Decidable.isTrue rfl
  | [], _ :: _ => Decidable.isFalse (by simp)
  | _ :: _, [] => Decidable.isFalse (by simp)
  | a :: as, b :: bs =>
    match Tag.decEq a b, Tag.decEqList as bs with
    | Decidable.isTrue h1, Decidable.isTrue h2 => Decidable.isTrue (by rw [h1, h2])
    | Decidable.isFalse h1, _ => Decidable.isFalse (fun he => by injection he; contradiction)
    | _, Decidable.isFalse h2 => Decidable.isFalse (fun he => by injection he; contradiction)

end

instance : DecidableEq Tag := Tag.decEq

/-- `parent.find_all(name, recursive=False)`: the direct children whose tag
name is `name`. -/
def findAllTag (name : String) (children : List Tag) : List Tag :=
  children.filter (fun c => c.name == name)

/-- One component of the xpath, for `child` under `parent`:
`f"{child.name}[{siblings.index(child) + 1}]"` when more than one direct
child shares the tag name, plain `child.name` otherwise. -/
def xpathComponentOf (parent child : Tag) : String :=
  let siblings := findAllTag child.name parent.children
  if siblings.length > 1 then
    child.name ++ "[" ++ toString (siblings.indexOf child + 1) ++ "]"
  else child.name

/-- All components along the child-index path `pos` from `t`. -/
def xpathComponents : Tag → List Nat → List String
  | _, [] => []
  | t, i :: rest =>
    match t.children.get? i with
    | none => []
    | some c => xpathComponentOf t c :: xpathComponents c rest

/-- `get_xpath`: `None` in, `None` out; otherwise the slash-joined
components with a leading `/`. -/
def get_xpath (root : Tag) (pos : Option (List Nat)) : Option String :=
  match pos with
  | none => none
  | some p => some ("/" ++ String.intercalate "/" (xpathComponents root p))

/-- The (parent, child) pairs along the child-index path `pos` from `t`;
`none` when the path leaves the tree. -/
def chainNodes : Tag → List Nat → Option (List (Tag × Tag))
  | _, [] => some []
  | t, i :: rest =>
    match t.children.get? i with
    | none => none
    | some c => (chainNodes c rest).map (fun l => (t, c) :: l)

/-- The claim's reading of one xpath segment for a (parent, child) step: the
segment is the child's tag name, carrying a 1-based sibling index pointing
at a sibling of the same tag equal to the child exactly when the parent has
more than one direct child of that tag name, and the bare name otherwise. -/
def segOk (pc : Tag × Tag) (s : String) : Prop :=
  let siblings := findAllTag pc.2.name pc.1.children
  (siblings.length ≤ 1 ∧ s = pc.2.name) ∨
    (1 < siblings.length ∧ ∃ k, 1 ≤ k ∧ k ≤ siblings.length ∧
      s = pc.2.name ++ "[" ++ toString k ++ "]" ∧
      siblings.get? (k - 1) = some pc.2)

/-! ## Concrete driver environments used by the witness runs -/

/-- A grid that renders the same header row plus one data row on every read. -/
def demoRaw : Nat → Option (List (List String)) :=
  fun _ => some [["h", "x", "y"], ["i", "a", "b"]]

/-- The rendered rows the scroll query sees for `demoRaw`. -/
def demoScroll : Nat → List (List String) :=
  fun _ => [["h", "x", "y"], ["i", "a", "b"]]

/-- A grid whose first read shows one data row and whose later reads render
only the sentinel row, so every later window is empty. -/
def stallRaw : Nat → Option (List (List String)) :=
  fun k => if k = 0 then some [["h", "x"], ["d", "r1"]] else some [["h", "x"]]

/-- The rendered rows the scroll query sees for `stallRaw`. -/
def stallScroll : Nat → List (List String) :=
  fun _ => [["h", "x"]]

/-- A static table with zero records: every read renders no rows at all. -/
def emptyRaw : Nat → Option (List (List String)) :=
  fun _ => some []

/-- The (empty) rendered row list the scroll query sees for `emptyRaw`. -/
def emptyScroll : Nat → List (List String) :=
  fun _ => []

/-- An attempt stream on which every read attempt goes stale. -/
def allStale : Nat → Option (List (List String)) :=
  fun _ => none

/-- A three-row static table (header plus two distinct data rows). -/
def staticRows : List (List String) :=
  [["h", "x", "y"], ["i", "a", "b"], ["j", "c", "d"]]

/-- An attempt stream that goes stale on the first five attempts and would
succeed afterwards — the loop never gets that far. -/
def lateRaw : Nat → Option (List (List String)) :=
  fun k => if k < 5 then none else some [["z", "late"]]

/-- The second `div` of the demo document's body. -/
def demoDiv2 : Tag := Tag.mk "div" []

/-- The `body` of the demo document: two `div` children. -/
def demoBody : Tag := Tag.mk "body" [Tag.mk "div" [Tag.mk "span" []], demoDiv2]

/-- The `html` element of the demo document. -/
def demoHtml : Tag := Tag.mk "html" [demoBody]

/-- A demo document: document node over `html > body > (div > span, div)`. -/
def demoDoc : Tag := Tag.mk "[document]" [demoHtml]

/-- A demo worker environment: setup succeeds, the visibility check sees an
empty read, nothing further happens. -/
def emptyVisibleEnv : WorkerEnv :=
  { setupErr := none
    firstVisible := some []
    scrapeRes := ScrapeResult.exn
    saveErr := none }

/-! ## Lemmas about `dropDup` -/

theorem dropDupAux_mem {α : Type} [DecidableEq α] (l : List α) :
    ∀ seen x, x ∈ dropDupAux seen l → x ∈ l ∧ x ∉ seen := by
  induction l with
  | nil => intro seen x h; simp [dropDupAux] at h
  | cons a rest ih =>
    intro seen x h
    by_cases ha : a ∈ seen
    · rw [dropDupAux, if_pos ha] at h
      obtain ⟨h1, h2⟩ := ih seen x h
      exact ⟨List.mem_cons_of_mem _ h1, h2⟩
    · rw [dropDupAux, if_neg ha] at h
      rcases List.mem_cons.mp h with h | h
      · subst h; exact ⟨List.mem_cons_self _ _, ha⟩
      · obtain ⟨h1, h2⟩ := ih (a :: seen) x h
        exact ⟨List.mem_cons_of_mem _ h1, fun hx => h2 (List.mem_cons_of_mem _ hx)⟩

theorem dropDupAux_nodup {α : Type} [DecidableEq α] (l : List α) :
    ∀ seen, (dropDupAux seen l).Nodup := by
  induction l with
  | nil => intro seen; simp [dropDupAux]
  | cons a rest ih =>
    intro seen
    by_cases ha : a ∈ seen
    · rw [dropDupAux, if_pos ha]; exact ih seen
    · rw [dropDupAux, if_neg ha]
      refine List.nodup_cons.mpr ⟨?_, ih (a :: seen)⟩
      intro hmem
      exact (dropDupAux_mem rest (a :: seen) a hmem).2 (List.mem_cons_self _ _)

theorem dropDupAux_eq_self {α : Type} [DecidableEq α] (l : List α) :
    ∀ seen, l.Nodup → (∀ x ∈ l, x ∉ seen) → dropDupAux seen l = l := by
  induction l with
  | nil => intro seen _ _; rfl
  | cons a rest ih =>
    intro seen hnd hout
    have ha : a ∉ seen := hout a (List.mem_cons_self _ _)
    rw [dropDupAux, if_neg ha]
    have hrest : rest.Nodup := (List.nodup_cons.mp hnd).2
    have hanotin : a ∉ rest := (List.nodup_cons.mp hnd).1
    rw [ih (a :: seen) hrest ?_]
    intro x hx hxs
    rcases List.mem_cons.mp hxs with h | h
    · subst h; exact hanotin hx
    · exact hout x (List.mem_cons_of_mem _ hx) h

theorem dropDupAux_nil {α : Type} [DecidableEq α] (w : List α) :
    ∀ seen, (∀ x ∈ w, x ∈ seen) → dropDupAux seen w = [] := by
  induction w with
  | nil => intro seen _; rfl
  | cons a rest ih =>
    intro seen hin
    rw [dropDupAux, if_pos (hin a (List.mem_cons_self _ _))]
    exact ih seen (fun x hx => hin x (List.mem_cons_of_mem _ hx))

theorem dropDupAux_append_absorb {α : Type} [DecidableEq α] (l : List α) :
    ∀ seen (w : List α), (∀ x ∈ w, x ∈ seen ∨ x ∈ l) →
      dropDupAux seen (l ++ w) = dropDupAux seen l := by
  induction l with
  | nil =>
    intro seen w h
    rw [List.nil_append]
    exact dropDupAux_nil w seen (fun x hx => (h x hx).resolve_right (by simp))
  | cons a rest ih =>
    intro seen w h
    by_cases ha : a ∈ seen
    · rw [List.cons_append, dropDupAux, if_pos ha, dropDupAux, if_pos ha]
      refine ih seen w (fun x hx => ?_)
      rcases h x hx with h' | h'
      · exact Or.inl h'
      · rcases List.mem_cons.mp h' with h'' | h''
        · subst h''; exact Or.inl ha
        · exact Or.inr h''
    · rw [List.cons_append, dropDupAux, if_neg ha, dropDupAux, if_neg ha]
      congr 1
      refine ih (a :: seen) w (fun x hx => ?_)
      rcases h x hx with h' | h'
      · exact Or.inl (List.mem_cons_of_mem _ h')
      · rcases List.mem_cons.mp h' with h'' | h''
        · subst h''; exact Or.inl (List.mem_cons_self _ _)
        · exact Or.inr h''

theorem dropDup_nodup {α : Type} [DecidableEq α] (l : List α) : (dropDup l).Nodup :=
  dropDupAux_nodup l []

theorem dropDup_subset {α : Type} [DecidableEq α] (l : List α) (x : α)
    (h : x ∈ dropDup l) : x ∈ l :=
  (dropDupAux_mem l [] x h).1

theorem dropDup_eq_self {α : Type} [DecidableEq α] (l : List α) (h : l.Nodup) :
    dropDup l = l :=
  dropDupAux_eq_self l [] h (by simp)

theorem dropDup_append_absorb {α : Type} [DecidableEq α] (l w : List α)
    (hl : l.Nodup) (hw : ∀ x ∈ w, x ∈ l) : dropDup (l ++ w) = l := by
  unfold dropDup
  rw [dropDupAux_append_absorb l [] w (fun x hx => Or.inr (hw x hx))]
  exact dropDup_eq_self l hl

/-! ## Lemmas about the accumulation loop -/

theorem ilocTail_of_suffix (w df : List Row) (hne : w ≠ []) (hsuf : w <:+ df) :
    ilocTail df w.length = w := by
  obtain ⟨t, rfl⟩ := hsuf
  have hw : w.length ≠ 0 := fun h => hne (List.length_eq_zero.mp h)
  unfold ilocTail
  rw [if_neg hw]
  have hlen : (t ++ w).length - w.length = t.length := by
    simp [List.length_append]
  rw [hlen, List.drop_left]

theorem windowOf_eq (raw : Nat → Option (List (List String))) (k : Nat) :
    windowOf raw k = ((raw k).map pyExtract).getD [] := by
  cases h : raw k <;> simp [windowOf, pdDataFrame, h]

theorem scrapeGo_done (raw : Nat → Option (List (List String)))
    (scroll : Nat → List (List String)) (fuel k : Nat) (df : List Row) :
    scrapeGo raw scroll (fuel + 1) k df 0 = some (ScrapeResult.done df) := by
  simp [scrapeGo]

theorem scrapeGo_succ (raw : Nat → Option (List (List String)))
    (scroll : Nat → List (List String)) (fuel k : Nat) (df : List Row)
    (retries : Nat) (hres : retries ≠ 0) (hscroll : scroll k ≠ []) :
    scrapeGo raw scroll (fuel + 1) k df retries =
      scrapeGo raw scroll fuel (k + 1) (dropDup (df ++ windowOf raw k))
        (if stallCond df (windowOf raw k) then retries - 1 else 5) := by
  cases h : raw k <;>
    simp [scrapeGo, hres, hscroll, pdDataFrame, windowOf, h]

theorem scrapeGo_stable (raw : Nat → Option (List (List String)))
    (scroll : Nat → List (List String)) (df : List Row)
    (hdf : df ≠ []) (hnd : df.Nodup) :
    ∀ r k fuel, (∀ j, k ≤ j → windowOf raw j ≠ [] ∧ windowOf raw j <:+ df) →
      (∀ j, k ≤ j → scroll j ≠ []) → r + 1 ≤ fuel →
      scrapeGo raw scroll fuel k df r = some (ScrapeResult.done df) := by
  intro r
  induction r with
  | zero =>
    intro k fuel _ _ hf
    obtain ⟨f, rfl⟩ : ∃ f, fuel = f + 1 := ⟨fuel - 1, by omega⟩
    exact scrapeGo_done raw scroll f k df
  | succ r ih =>
    intro k fuel hw hs hf
    obtain ⟨f, rfl⟩ : ∃ f, fuel = f + 1 := ⟨fuel - 1, by omega⟩
    obtain ⟨hwne, hwsuf⟩ := hw k le_rfl
    have hcond : stallCond df (windowOf raw k) :=
      ⟨hdf, ilocTail_of_suffix _ _ hwne hwsuf⟩
    rw [scrapeGo_succ raw scroll f k df (r + 1) (by omega) (hs k le_rfl),
      if_pos hcond,
      dropDup_append_absorb df (windowOf raw k) hnd (fun x hx => hwsuf.subset hx)]
    have : r + 1 - 1 = r := by omega
    rw [this]
    exact ih (k + 1) f (fun j hj => hw j (by omega)) (fun j hj => hs j (by omega))
      (by omega)

theorem pyExtract_mem (rows : List (List String)) (r0 : Row)
    (h : r0 ∈ pyExtract rows) :
    ∃ i t, 1 ≤ i ∧ rows.get? i = some t ∧ r0 = t.drop 1 := by
  cases rows with
  | nil => simp [pyExtract] at h
  | cons a rest =>
    unfold pyExtract at h
    rw [List.map_cons, List.drop_one, List.tail_cons] at h
    obtain ⟨t, ht, rfl⟩ := List.mem_map.mp h
    obtain ⟨j, hj⟩ := List.get?_of_mem ht
    exact ⟨j + 1, t, by omega, by simpa using hj, rfl⟩

theorem scrapeGo_inv (raw : Nat → Option (List (List String)))
    (scroll : Nat → List (List String)) :
    ∀ fuel k df retries df',
      df.Nodup → (∀ r ∈ df, ∃ j rows, raw j = some rows ∧ r ∈ pyExtract rows) →
      scrapeGo raw scroll fuel k df retries = some (ScrapeResult.done df') →
      df'.Nodup ∧ ∀ r ∈ df', ∃ j rows, raw j = some rows ∧ r ∈ pyExtract rows := by
  intro fuel
  induction fuel with
  | zero =>
    intro k df retries df' _ _ h3
    simp [scrapeGo] at h3
  | succ f ih =>
    intro k df retries df' h1 h2 h3
    by_cases hres : retries = 0
    · subst hres
      rw [scrapeGo_done] at h3
      have : df = df' := by simpa using h3
      subst this
      exact ⟨h1, h2⟩
    · by_cases hscroll : scroll k = []
      · exfalso
        cases hraw : raw k <;>
          simp [scrapeGo, hres, hscroll, pdDataFrame, hraw] at h3
      · rw [scrapeGo_succ raw scroll f k df retries hres hscroll] at h3
        refine ih (k + 1) _ _ df' (dropDup_nodup _) ?_ h3
        intro r hr
        rcases List.mem_append.mp (dropDup_subset _ r hr) with hold | hnew
        · exact h2 r hold
        · rw [windowOf_eq] at hnew
          cases hraw : raw k with
          | none => rw [hraw] at hnew; simp at hnew
          | some rows =>
            rw [hraw] at hnew
            exact ⟨k, rows, hraw, by simpa using hnew⟩

/-- C1: whenever `scrape_data` returns a frame and the worker reaches its
save step, the finalized RowSet (extra dimension columns appended, then
deduplicated, as written to the CSV) contains no two fully identical
records, and every record of it is built from a record of some read's
processed window — and every such record comes from a rendered row at
visible index 1 or later, never from the sentinel row at index 0, because
`extract_visible_rows` drops each read's first row and every append is
followed by `drop_duplicates`. -/
theorem c1_rowset_invariant (raw : Nat → Option (List (List String)))
    (scroll : Nat → List (List String)) (fuel : Nat) (df : List Row)
    (state category : String) (year : Nat)
    (h : scrapeRun raw scroll fuel = some (ScrapeResult.done df)) :
    (finalizeDf df state category year).Nodup ∧
      (∀ r ∈ finalizeDf df state category year,
        ∃ r0 j rows, raw j = some rows ∧ r0 ∈ pyExtract rows ∧
          r = r0 ++ [state, category, toString year]) ∧
      (∀ (r0 : Row) (rows : List (List String)), r0 ∈ pyExtract rows →
        ∃ i t, 1 ≤ i ∧ rows.get? i = some t ∧ r0 = t.drop 1) := by
  obtain ⟨hnd, hmem⟩ := scrapeGo_inv raw scroll fuel 0 [] 5 df List.nodup_nil
    (by intro r hr; simp at hr) h
  refine ⟨dropDup_nodup _, ?_, fun r0 rows hr0 => pyExtract_mem rows r0 hr0⟩
  intro r hr
  obtain ⟨r0, hr0, rfl⟩ := List.mem_map.mp (dropDup_subset _ r hr)
  obtain ⟨j, rows, hraw, hmemw⟩ := hmem r0 hr0
  exact ⟨r0, j, rows, hraw, hmemw, rfl⟩

/-- Witness for C1 at a concrete terminating run: the saved frame for the
demo grid is duplicate-free. -/
theorem c1_witness :
    (finalizeDf [["a", "b"]] "KARNATAKA" "GEN" 2015).Nodup :=
  (c1_rowset_invariant demoRaw demoScroll 7 [["a", "b"]] "KARNATAKA" "GEN" 2015
    (by decide)).1

/-- C2 (amended): once some row has been appended (the accumulated frame is
nonempty and deduplicated) and from read `k` on every window is a nonempty
suffix of the accumulated frame — the virtualized source keeps rendering
the final window after row N — every such read satisfies the stall test,
so the loop takes the decrement branch (never the reset branch), and the
loop reaches the terminal return of the unchanged frame within 5 further
read cycles: 6 fuel suffices from that point, so it does not loop
indefinitely. (The empty re-read case, which resets the budget, is the
counterexample to the unamended claim.) -/
theorem c2_stability_termination (raw : Nat → Option (List (List String)))
    (scroll : Nat → List (List String)) (k : Nat) (df : List Row) (fuel : Nat)
    (hdf : df ≠ []) (hnd : df.Nodup)
    (hw : ∀ j, k ≤ j → windowOf raw j ≠ [] ∧ windowOf raw j <:+ df)
    (hs : ∀ j, k ≤ j → scroll j ≠ []) (hfuel : 6 ≤ fuel) :
    (∀ j, k ≤ j → stallCond df (windowOf raw j)) ∧
      scrapeGo raw scroll fuel k df 5 = some (ScrapeResult.done df) := by
  constructor
  · intro j hj
    exact ⟨hdf, ilocTail_of_suffix _ _ (hw j hj).1 (hw j hj).2⟩
  · exact scrapeGo_stable raw scroll df hdf hnd 5 k fuel hw hs (by omega)

/-- Counterexample to C2 as stated: a source whose later reads render only
the sentinel row. Its windows are empty, so their records are (vacuously)
already in the accumulated set, yet the stall test fails on an empty window
(`df.iloc[-0:]` slices the whole frame) and the loop takes the reset
branch; even 39 read cycles after row 1 was last seen, the run has not
reached the terminal state, refuting termination within 5 cycles. -/
theorem c2_counterexample :
    scrapeRun stallRaw stallScroll 40 = none ∧
      decide (stallCond [["r1"]] ([] : List Row)) = false := by
  constructor
  · decide
  · decide

/-- Witness for C2 at a concrete stable source: every read after the demo
frame was accumulated takes the decrement branch, and the run finishes in
5 further cycles with the frame unchanged. -/
theorem c2_witness :
    (∀ j, 0 ≤ j → stallCond [["a", "b"]] (windowOf demoRaw j)) ∧
      scrapeGo demoRaw demoScroll 6 0 [["a", "b"]] 5 =
        some (ScrapeResult.done [["a", "b"]]) :=
  c2_stability_termination demoRaw demoScroll 0 [["a", "b"]] 6
    (by decide) (by decide)
    (fun j _ => ⟨by simp [windowOf, demoRaw, pdDataFrame, pyExtract],
      ⟨[], by simp [windowOf, demoRaw, pdDataFrame, pyExtract]⟩⟩)
    (fun j _ => by simp [demoScroll]) (by omega)

/-- C3 (amended): against a static table — every read renders the same rows
`rows0`, the scroll query sees those same rows — whose extracted window is
nonempty and duplicate-free, `scrape_data` terminates (7 fuel suffices,
regardless of scroll step granularity, which cannot change the constant
reads) and returns exactly the K extracted records, deduplicated. For
K = 0 the claim fails: see the counterexample. -/
theorem c3_static_table (rows0 : List (List String)) (K fuel : Nat)
    (hne : pyExtract rows0 ≠ []) (hnd : (pyExtract rows0).Nodup)
    (hK : (pyExtract rows0).length = K) (hfuel : 7 ≤ fuel) :
    ∃ df, scrapeRun (fun _ => some rows0) (fun _ => rows0) fuel =
        some (ScrapeResult.done df) ∧ df.length = K ∧ df.Nodup := by
  have hwin : ∀ j, windowOf (fun _ => some rows0) j = pyExtract rows0 := by
    intro j; simp [windowOf, pdDataFrame]
  have hrows : rows0 ≠ [] := by
    intro h; exact hne (by rw [h]; rfl)
  refine ⟨pyExtract rows0, ?_, hK, hnd⟩
  unfold scrapeRun
  obtain ⟨f, rfl⟩ : ∃ f, fuel = f + 1 := ⟨fuel - 1, by omega⟩
  rw [scrapeGo_succ _ _ f 0 [] 5 (by omega) hrows]
  have hnotstall : ¬ stallCond [] (windowOf (fun _ => some rows0) 0) :=
    fun hc => hc.1 rfl
  rw [if_neg hnotstall, hwin, List.nil_append, dropDup_eq_self _ hnd]
  exact scrapeGo_stable _ _ (pyExtract rows0) hne hnd 5 1 f
    (fun j _ => ⟨by rw [hwin]; exact hne, by rw [hwin]⟩)
    (fun j _ => hrows) (by omega)

/-- Counterexample to C3 as stated ("for any K"): the static table with
K = 0 rows. Every read returns the same zero records, but the run raises
inside `scrape_data` (the scroll indexes an empty element list), so it
returns `None` rather than a frame of 0 deduplicated records. -/
theorem c3_counterexample :
    scrapeRun emptyRaw emptyScroll 5 = some ScrapeResult.exn := by
  decide

/-- Witness for C3 on the three-row static demo table: two records come
back, deduplicated. -/
theorem c3_witness :
    ∃ df, scrapeRun (fun _ => some staticRows) (fun _ => staticRows) 7 =
        some (ScrapeResult.done df) ∧ df.length = 2 ∧ df.Nodup :=
  c3_static_table staticRows 2 7 (by decide) (by decide) (by decide) (by omega)

/-- C4 (amended): the district checker warns exactly when the accumulated
row count differs from the displayed total (thousands separators stripped),
and the instructor checker flags each checked column exactly when its sum
disagrees with the code's footer entry for it; flagging never aborts — the
normal output rows are written / returned either way. On a mismatch the
district target writes the expected-vs-actual figures (a three-row log, not
the mismatching data) to the improper location, while the instructor target
writes the mismatching frame itself (without the figures) to the flagged
location. -/
theorem c4_completeness_check (key : String) (df : List Row)
    (cardText : String) (summ : List String) :
    ((districtsFinish key df cardText).warned
        = decide ((df.length : Int) ≠ get_expected_data cardText)) ∧
      (districtsFinish key df cardText).savedFile = df ∧
      ((districtsFinish key df cardText).improperFile
        = if (df.length : Int) ≠ get_expected_data cardText then
            some [[key], [toString df.length],
              [toString (get_expected_data cardText)]]
          else none) ∧
      (citsFinish df summ).result = df ∧
      ((citsFinish df summ).unitsFlag
        = decide (colSum df 4 ≠ footerValue summ 3)) ∧
      ((citsFinish df summ).postsFlag
        = decide (colSum df 5 ≠ footerValue summ 4)) ∧
      ((citsFinish df summ).filledFlag
        = decide (colSum df 6 ≠ footerValue summ 5)) ∧
      (∀ x ∈ (citsFinish df summ).improperFiles, x = df) ∧
      ((citsFinish df summ).improperFiles = [] ↔
        ((citsFinish df summ).unitsFlag = false ∧
          (citsFinish df summ).postsFlag = false ∧
          (citsFinish df summ).filledFlag = false)) := by
  refine ⟨?_, ?_, ?_, rfl, rfl, rfl, rfl, ?_, ?_⟩
  · by_cases h : (df.length : Int) ≠ get_expected_data cardText <;>
      simp [districtsFinish, h]
  · by_cases h : (df.length : Int) ≠ get_expected_data cardText <;>
      simp [districtsFinish, h]
  · by_cases h : (df.length : Int) ≠ get_expected_data cardText <;>
      simp [districtsFinish, h]
  · intro x hx
    simp only [citsFinish] at hx
    rcases List.mem_append.mp hx with hx | hx
    · rcases List.mem_append.mp hx with hx | hx <;>
        · split at hx <;> simp at hx
          exact hx
    · split at hx <;> simp at hx
      exact hx
  · simp only [citsFinish]
    constructor
    · intro h
      refine ⟨?_, ?_, ?_⟩ <;> by_contra hb <;>
        simp [Bool.not_eq_false] at hb <;> simp [hb] at h
    · rintro ⟨h1, h2, h3⟩
      simp [h1, h2, h3]

/-- Counterexample to C4 as stated: a district unit with one accumulated
record against a displayed total of 2. The checker flags, but what lands at
the improper location is the three-row expected-vs-actual log — the
mismatching record itself is not written there. -/
theorem c4_counterexample :
    (districtsFinish "2014_S_D" [["A", "B"]] "2").warned = true ∧
      (districtsFinish "2014_S_D" [["A", "B"]] "2").improperFile
        = some [["2014_S_D"], ["1"], ["2"]] ∧
      ([["2014_S_D"], ["1"], ["2"]].contains ["A", "B"]) = false ∧
      (districtsFinish "2014_S_D" [["A", "B"]] "2").savedFile = [["A", "B"]] := by
  refine ⟨?_, ?_, ?_, ?_⟩ <;> decide

/-- C5: whatever the worker body does — success, the empty-result
short-circuit, or any raised exception — the worker returns normally to the
pool (its `except Exception` clause swallows every exception), and its
`finally` block quits the browser session and performs exactly one
increment of the unit's Progress entry, under the lock. -/
theorem c5_worker_cleanup (state category : String) (year : Nat)
    (env : WorkerEnv) :
    ∃ eff, poolWorker state category year env = Except.ok eff ∧
      eff.driverQuit = true ∧ eff.progressIncrements = 1 ∧
      eff.incrementUnderLock = true :=
  ⟨_, rfl, rfl, rfl, rfl⟩

/-- C7: when setup succeeds and the post-filter visibility check sees an
empty read, the worker short-circuits to the EmptySkipped outcome: the
Row Accumulator is never invoked, nothing is written, and the unit's
Progress entry is still incremented exactly once. -/
theorem c7_empty_skip (state category : String) (year : Nat) (env : WorkerEnv)
    (hsetup : env.setupErr = none) (hvis : env.firstVisible = some []) :
    poolWorker state category year env = Except.ok
      { outcome := UnitOutcome.emptySkipped
        scrapeCalled := false
        saved := none
        driverQuit := true
        progressIncrements := 1
        incrementUnderLock := true } := by
  simp [poolWorker, workerBody, scrapeInvoked, hsetup, hvis, pyLen]

/-- Witness for C7 at a concrete environment whose visibility check sees
zero rows. -/
theorem c7_witness :
    poolWorker "ASSAM" "GEN" 2015 emptyVisibleEnv = Except.ok
      { outcome := UnitOutcome.emptySkipped
        scrapeCalled := false
        saved := none
        driverQuit := true
        progressIncrements := 1
        incrementUnderLock := true } :=
  c7_empty_skip "ASSAM" "GEN" 2015 emptyVisibleEnv rfl rfl

/-! ## Lemmas about the scheduler's progress map -/

theorem innerUnits_length (s : String) (cs : List String) (ys : List Nat) :
    (cs.flatMap (fun c => ys.map (fun y => (s, c, y)))).length
      = cs.length * ys.length := by
  induction cs with
  | nil => simp
  | cons c cs ih =>
    rw [List.flatMap_cons, List.length_append, List.length_map, ih,
      List.length_cons]
    ring

theorem workUnits_length (ss cs : List String) (ys : List Nat) :
    (workUnits ss cs ys).length = ss.length * cs.length * ys.length := by
  induction ss with
  | nil => simp [workUnits]
  | cons s ss ih =>
    unfold workUnits at ih ⊢
    rw [List.flatMap_cons, List.length_append, innerUnits_length, ih,
      List.length_cons]
    ring

theorem innerUnits_mem (s : String) (cs : List String) (ys : List Nat)
    (u : UnitKey) :
    u ∈ cs.flatMap (fun c => ys.map (fun y => (s, c, y))) ↔
      u.1 = s ∧ u.2.1 ∈ cs ∧ u.2.2 ∈ ys := by
  obtain ⟨a, b, c⟩ := u
  rw [List.mem_flatMap]
  constructor
  · rintro ⟨c', hc', hmem⟩
    obtain ⟨y', hy', heq⟩ := List.mem_map.mp hmem
    cases heq
    exact ⟨rfl, hc', hy'⟩
  · rintro ⟨h1, h2, h3⟩
    subst h1
    exact ⟨b, h2, List.mem_map.mpr ⟨c, h3, rfl⟩⟩

theorem workUnits_mem (ss cs : List String) (ys : List Nat) (u : UnitKey) :
    u ∈ workUnits ss cs ys ↔ u.1 ∈ ss ∧ u.2.1 ∈ cs ∧ u.2.2 ∈ ys := by
  unfold workUnits
  rw [List.mem_flatMap]
  constructor
  · rintro ⟨s, hs, hmem⟩
    obtain ⟨h1, h2, h3⟩ := (innerUnits_mem s cs ys u).mp hmem
    exact ⟨h1 ▸ hs, h2, h3⟩
  · rintro ⟨h1, h2, h3⟩
    exact ⟨u.1, h1, (innerUnits_mem u.1 cs ys u).mpr ⟨rfl, h2, h3⟩⟩

theorem innerUnits_nodup (s : String) (cs : List String) (ys : List Nat)
    (h2 : cs.Nodup) (h3 : ys.Nodup) :
    (cs.flatMap (fun c => ys.map (fun y => (s, c, y)))).Nodup := by
  induction cs with
  | nil => simp
  | cons c cs ih =>
    rw [List.flatMap_cons]
    have hcs := List.nodup_cons.mp h2
    refine List.Nodup.append ?_ (ih hcs.2) ?_
    · exact h3.map (fun y1 y2 h => by simpa using h)
    · intro x hx1 hx2
      obtain ⟨y, _, rfl⟩ := List.mem_map.mp hx1
      have := ((innerUnits_mem s cs ys _).mp hx2).2.1
      exact hcs.1 this

theorem workUnits_nodup (ss cs : List String) (ys : List Nat)
    (h1 : ss.Nodup) (h2 : cs.Nodup) (h3 : ys.Nodup) :
    (workUnits ss cs ys).Nodup := by
  induction ss with
  | nil => simp [workUnits]
  | cons s ss ih =>
    unfold workUnits at ih ⊢
    rw [List.flatMap_cons]
    have hss := List.nodup_cons.mp h1
    refine List.Nodup.append (innerUnits_nodup s cs ys h2 h3) (ih hss.2) ?_
    intro x hx1 hx2
    have hx1' := ((innerUnits_mem s cs ys x).mp hx1).1
    have hx2' := ((workUnits_mem ss cs ys x).mp hx2).1
    exact hss.1 (hx1' ▸ hx2')

theorem lookupProgress_cons (e : UnitKey × Nat) (m : List (UnitKey × Nat))
    (u : UnitKey) :
    lookupProgress (e :: m) u =
      if e.1 = u then some e.2 else lookupProgress m u := by
  by_cases h : e.1 = u <;> simp [lookupProgress, List.find?_cons, h]

theorem lookupProgress_seed (units : List UnitKey) (u : UnitKey)
    (h : u ∈ units) : lookupProgress (seedProgress units) u = some 0 := by
  induction units with
  | nil => simp at h
  | cons v vs ih =>
    rw [seedProgress, List.map_cons, lookupProgress_cons]
    rcases List.mem_cons.mp h with h | h
    · subst h; simp
    · by_cases hv : v = u
      · subst hv; simp
      · simpa [hv, seedProgress] using ih h

theorem lookupProgress_bump (m : List (UnitKey × Nat)) (k u : UnitKey) :
    lookupProgress (bumpProgress m k) u =
      (lookupProgress m u).map (fun v => if u = k then v + 1 else v) := by
  induction m with
  | nil => simp [bumpProgress, lookupProgress]
  | cons e m ih =>
    unfold bumpProgress at ih ⊢
    rw [List.map_cons]
    by_cases h2 : e.1 = k
    · rw [if_pos h2, lookupProgress_cons, lookupProgress_cons]
      by_cases h1 : e.1 = u
      · have hk : u = k := h1 ▸ h2
        simp [h1, hk]
      · simp [h1, ih]
    · rw [if_neg h2, lookupProgress_cons, lookupProgress_cons]
      by_cases h1 : e.1 = u
      · have hk : ¬ u = k := fun hc => h2 (h1.trans hc)
        simp [h1, hk]
      · simp [h1, ih]

theorem lookupProgress_foldl (d : List UnitKey) :
    ∀ (m : List (UnitKey × Nat)) (u : UnitKey),
      lookupProgress (d.foldl bumpProgress m) u =
        (lookupProgress m u).map (fun v => v + d.count u) := by
  induction d with
  | nil =>
    intro m u
    cases h : lookupProgress m u <;> simp [h]
  | cons a d ih =>
    intro m u
    rw [List.foldl_cons, ih, lookupProgress_bump]
    cases h : lookupProgress m u with
    | none => simp
    | some v =>
      by_cases hu : u = a
      · simp [List.count_cons, hu, Option.map_map, Function.comp]
        omega
      · simp [List.count_cons, hu, Option.map_map, Function.comp]

theorem keysOf_bump (m : List (UnitKey × Nat)) (k : UnitKey) :
    (bumpProgress m k).map Prod.fst = m.map Prod.fst := by
  unfold bumpProgress
  rw [List.map_map]
  refine List.map_congr_left (fun e _ => ?_)
  by_cases h : e.1 = k <;> simp [h]

theorem keysOf_seed (units : List UnitKey) :
    (seedProgress units).map Prod.fst = units := by
  unfold seedProgress
  induction units with
  | nil => rfl
  | cons u us ih => rw [List.map_cons, List.map_cons, ih]

theorem progressSum_cons (e : UnitKey × Nat) (m : List (UnitKey × Nat)) :
    progressSum (e :: m) = e.2 + progressSum m := by
  simp [progressSum]

theorem progressSum_bump (m : List (UnitKey × Nat)) (k : UnitKey)
    (hk : k ∈ m.map Prod.fst) (hnd : (m.map Prod.fst).Nodup) :
    progressSum (bumpProgress m k) = progressSum m + 1 := by
  induction m with
  | nil => simp at hk
  | cons e m ih =>
    rw [List.map_cons] at hk hnd
    have hnd' := List.nodup_cons.mp hnd
    unfold bumpProgress
    rw [List.map_cons]
    rcases List.mem_cons.mp hk with h | h
    · rw [if_pos h.symm, progressSum_cons, progressSum_cons]
      have hnone : ∀ e' ∈ m, e'.1 ≠ k := by
        intro e' he' hc
        exact hnd'.1 (h ▸ hc ▸ List.mem_map_of_mem Prod.fst he')
      have : m.map (fun e' => if e'.1 = k then (e'.1, e'.2 + 1) else e') = m := by
        rw [List.map_congr_left (g := id) (fun e' he' => by
          simp [hnone e' he']), List.map_id]
      rw [this]
      omega
    · have hne : e.1 ≠ k := fun hc => hnd'.1 (hc ▸ h)
      rw [if_neg hne, progressSum_cons]
      have := ih h hnd'.2
      unfold bumpProgress at this
      rw [this, progressSum_cons]
      omega

theorem progressSum_seed (units : List UnitKey) :
    progressSum (seedProgress units) = 0 := by
  induction units with
  | nil => rfl
  | cons u us ih =>
    rw [seedProgress, List.map_cons, progressSum_cons]
    simpa [seedProgress] using ih

theorem progressSum_foldl (units : List UnitKey) (hnd : units.Nodup) :
    ∀ (d : List UnitKey) (m : List (UnitKey × Nat)), m.map Prod.fst = units →
      (∀ x ∈ d, x ∈ units) →
      progressSum (d.foldl bumpProgress m) = progressSum m + d.length := by
  intro d
  induction d with
  | nil => intro m _ _; simp
  | cons a d ih =>
    intro m hkeys hsub
    rw [List.foldl_cons]
    have hsum := progressSum_bump m a (hkeys ▸ hsub a (List.mem_cons_self a d))
      (hkeys ▸ hnd)
    rw [ih (bumpProgress m a) ((keysOf_bump m a).trans hkeys)
      (fun x hx => hsub x (List.mem_cons_of_mem _ hx)), hsum, List.length_cons]
    omega

theorem count_one_of_nodup (l : List UnitKey) (u : UnitKey)
    (hnd : l.Nodup) (hu : u ∈ l) : l.count u = 1 := by
  induction l with
  | nil => simp at hu
  | cons a l ih =>
    have hp := List.nodup_cons.mp hnd
    rw [List.count_cons]
    rcases List.mem_cons.mp hu with rfl | hu'
    · have hz : l.count u = 0 := List.count_eq_zero.mpr hp.1
      simp [hz]
    · have hne : u ≠ a := fun hb => absurd (hb ▸ hu') hp.1
      simp [ih hp.2 hu', hne, Ne.symm hne]

/-- C6: with pairwise-distinct declared dimension values, the scheduler's
comprehension creates exactly `a * b * c` WorkUnits — one per element of
the Cartesian product, with no repeats — the Progress dict is seeded with a
zero entry for each, dispatching the same list once (as `starmap` does,
each worker incrementing its own key exactly once) leaves every entry at
exactly 1, and the monitor's continuation test `sum < total` holds after
`k` completed units exactly while `k` is below the total, so the monitor
loop terminates exactly when the Progress sum reaches the unit count. -/
theorem c6_scheduler (states categories : List String) (years : List Nat)
    (h1 : states.Nodup) (h2 : categories.Nodup) (h3 : years.Nodup) :
    (workUnits states categories years).length
        = states.length * categories.length * years.length ∧
      (∀ u ∈ workUnits states categories years,
        (workUnits states categories years).count u = 1) ∧
      (∀ u ∈ workUnits states categories years,
        lookupProgress (seedProgress (workUnits states categories years)) u
          = some 0) ∧
      (∀ u ∈ workUnits states categories years,
        lookupProgress ((workUnits states categories years).foldl bumpProgress
          (seedProgress (workUnits states categories years))) u = some 1) ∧
      (∀ k, k ≤ (workUnits states categories years).length →
        monitorContinues
            (((workUnits states categories years).take k).foldl bumpProgress
              (seedProgress (workUnits states categories years)))
            (workUnits states categories years).length
          = decide (k < (workUnits states categories years).length)) := by
  have hnd := workUnits_nodup states categories years h1 h2 h3
  refine ⟨workUnits_length states categories years, ?_, ?_, ?_, ?_⟩
  · intro u hu
    exact count_one_of_nodup _ u hnd hu
  · intro u hu
    exact lookupProgress_seed _ u hu
  · intro u hu
    rw [lookupProgress_foldl, lookupProgress_seed _ u hu, Option.map_some',
      count_one_of_nodup _ u hnd hu]
  · intro k hk
    unfold monitorContinues
    rw [progressSum_foldl _ hnd (List.take k _) (seedProgress _)
      (keysOf_seed _) (fun x hx => List.take_subset k _ hx),
      progressSum_seed, List.length_take, Nat.zero_add,
      Nat.min_eq_left hk]

/-- Witness for C6 at the spec's 2 x 1 x 2 example (two states, one year,
two categories): 4 WorkUnits, and after every unit reported once, the
first unit's Progress entry is exactly 1 and the monitor test stops. -/
theorem c6_witness :
    (workUnits ["S1", "S2"] ["GEN", "OBC"] [2015]).length = 2 * 2 * 1 ∧
      lookupProgress
          ((workUnits ["S1", "S2"] ["GEN", "OBC"] [2015]).foldl bumpProgress
            (seedProgress (workUnits ["S1", "S2"] ["GEN", "OBC"] [2015])))
          ("S1", "GEN", 2015) = some 1 ∧
      monitorContinues
          (((workUnits ["S1", "S2"] ["GEN", "OBC"] [2015]).take 4).foldl
            bumpProgress
            (seedProgress (workUnits ["S1", "S2"] ["GEN", "OBC"] [2015]))) 4
        = false := by
  have h := c6_scheduler ["S1", "S2"] ["GEN", "OBC"] [2015]
    (by decide) (by decide) (by decide)
  refine ⟨h.1, h.2.2.2.1 ("S1", "GEN", 2015) (by decide), ?_⟩
  have h4 := h.2.2.2.2 4 (by decide)
  simpa using h4

/-- C8 (amended): only the search-select protocol catches transient UI
errors, and only the three classes its `except` clause lists — a click
intercepted by an overlay, a missing element, or a timeout — any of which
makes it return normally after logging; a staleness error escapes even
search-select. The direct-select protocol has no handler at all: whichever
step fails first, its error propagates to the caller (it is the worker's
outer handler that eventually catches it), and direct-select returns
normally only when every one of its three interactions succeeds. -/
theorem c8_error_handling (acts : Nat → Option UIError) :
    (search_select_from_dropdown acts = Except.ok () ∨
        search_select_from_dropdown acts = Except.error UIError.stale) ∧
      (∀ e, searchSelectBody acts = Except.error e →
        caughtBySearchSelect e = true →
        search_select_from_dropdown acts = Except.ok ()) ∧
      (searchSelectBody acts = Except.error UIError.stale →
        search_select_from_dropdown acts = Except.error UIError.stale) ∧
      (∀ e, acts 0 = some e →
        select_option_from_dropdown acts = Except.error e) ∧
      (∀ e, acts 0 = none → acts 1 = some e →
        select_option_from_dropdown acts = Except.error e) ∧
      (∀ e, acts 0 = none → acts 1 = none → acts 2 = some e →
        select_option_from_dropdown acts = Except.error e) ∧
      (acts 0 = none → acts 1 = none → acts 2 = none →
        select_option_from_dropdown acts = Except.ok ()) := by
  refine ⟨?_, ?_, ?_, ?_, ?_, ?_, ?_⟩
  · cases hb : searchSelectBody acts with
    | ok u => exact Or.inl (by simp [search_select_from_dropdown, hb])
    | error e =>
      cases e <;>
        simp [search_select_from_dropdown, hb, caughtBySearchSelect]
  · intro e hb hc
    simp [search_select_from_dropdown, hb, hc]
  · intro hb
    simp [search_select_from_dropdown, hb, caughtBySearchSelect]
  · intro e h0
    simp [select_option_from_dropdown, h0]
  · intro e h0 h1
    simp [select_option_from_dropdown, h0, h1]
  · intro e h0 h1 h2
    simp [select_option_from_dropdown, h0, h1, h2]
  · intro h0 h1 h2
    simp [select_option_from_dropdown, h0, h1, h2]

/-- Counterexample to C8 as stated: a timeout on the very first interaction
of the direct-select protocol is not caught and logged there — the function
raises it to its caller instead of returning normally. -/
theorem c8_counterexample :
    select_option_from_dropdown (fun _ => some UIError.timeout)
        = Except.error UIError.timeout ∧
      search_select_from_dropdown (fun _ => some UIError.stale)
        = Except.error UIError.stale := by
  exact ⟨rfl, rfl⟩

/-! ## Lemmas about the locator resolver -/

theorem segOk_of_mem (parent c : Tag) (hmem : c ∈ parent.children) :
    segOk (parent, c) (xpathComponentOf parent c) := by
  have hcs : c ∈ findAllTag c.name parent.children := by
    unfold findAllTag
    exact List.mem_filter.mpr ⟨hmem, by simp⟩
  show (findAllTag c.name parent.children).length ≤ 1 ∧
      xpathComponentOf parent c = c.name ∨
    (1 < (findAllTag c.name parent.children).length ∧ ∃ k, 1 ≤ k ∧
      k ≤ (findAllTag c.name parent.children).length ∧
      xpathComponentOf parent c = c.name ++ "[" ++ toString k ++ "]" ∧
      (findAllTag c.name parent.children).get? (k - 1) = some c)
  by_cases hlen : (findAllTag c.name parent.children).length > 1
  · have hidx : (findAllTag c.name parent.children).indexOf c
        < (findAllTag c.name parent.children).length :=
      List.indexOf_lt_length.mpr hcs
    refine Or.inr ⟨hlen, (findAllTag c.name parent.children).indexOf c + 1,
      by omega, by omega, ?_, ?_⟩
    · unfold xpathComponentOf
      rw [if_pos hlen]
    · rw [Nat.add_sub_cancel, List.get?_eq_get hidx]
      congr 1
      exact List.indexOf_get hidx
  · refine Or.inl ⟨by omega, ?_⟩
    unfold xpathComponentOf
    rw [if_neg hlen]

theorem chainNodes_cons_inv (root : Tag) (i : Nat) (rest : List Nat)
    (pairs : List (Tag × Tag)) (h : chainNodes root (i :: rest) = some pairs) :
    ∃ c l, root.children.get? i = some c ∧ chainNodes c rest = some l ∧
      pairs = (root, c) :: l := by
  rw [chainNodes] at h
  split at h
  · cases h
  · rename_i c hc
    cases hrest : chainNodes c rest with
    | none => rw [hrest] at h; cases h
    | some l =>
      rw [hrest, Option.map_some'] at h
      cases h
      exact ⟨c, l, hc, hrest, rfl⟩

theorem xpathComponents_cons (t : Tag) (i : Nat) (rest : List Nat) (c : Tag)
    (hc : t.children.get? i = some c) :
    xpathComponents t (i :: rest)
      = xpathComponentOf t c :: xpathComponents c rest := by
  rw [xpathComponents]
  split
  · rename_i h
    rw [hc] at h
    cases h
  · rename_i c' hc'
    rw [hc] at hc'
    cases hc'
    rfl

/-- C9: `get_xpath` maps an absent element to the null address, and an
element addressed by any in-tree path to a root-relative slash-joined path
whose segments satisfy, step by step along the (parent, child) chain from
the document root to the element, the claim's contract: a tag name carrying
a 1-based sibling index (pointing at a same-tag sibling equal to the child)
exactly when the parent has more than one direct child of that tag name,
and the bare tag name otherwise. -/
theorem c9_get_xpath (root : Tag) :
    get_xpath root none = none ∧
      ∀ p pairs, chainNodes root p = some pairs →
        get_xpath root (some p)
            = some ("/" ++ String.intercalate "/" (xpathComponents root p)) ∧
          List.Forall₂ segOk pairs (xpathComponents root p) := by
  refine ⟨rfl, ?_⟩
  intro p
  induction p generalizing root with
  | nil =>
    intro pairs h
    unfold chainNodes at h
    cases h
    exact ⟨rfl, List.Forall₂.nil⟩
  | cons i rest ih =>
    intro pairs h
    obtain ⟨c, l, hc, hrest, rfl⟩ := chainNodes_cons_inv root i rest pairs h
    refine ⟨rfl, ?_⟩
    rw [xpathComponents_cons root i rest c hc]
    exact List.Forall₂.cons
      (segOk_of_mem root c (List.get?_mem hc))
      ((ih c l hrest).2)

/-- Witness for C9 on the demo document: the second `div` under
`html > body` resolves to `/html/body/div[2]`, and every segment along the
chain satisfies the contract. -/
theorem c9_witness :
    get_xpath demoDoc (some [0, 0, 1]) = some "/html/body/div[2]" ∧
      List.Forall₂ segOk
        [(demoDoc, demoHtml), (demoHtml, demoBody), (demoBody, demoDiv2)]
        (xpathComponents demoDoc [0, 0, 1]) := by
  have h := (c9_get_xpath demoDoc).2 [0, 0, 1]
    [(demoDoc, demoHtml), (demoHtml, demoBody), (demoBody, demoDiv2)]
    (by decide)
  exact ⟨h.1.trans (by decide), h.2⟩

/-! ## Lemmas about the read-retry loop -/

theorem extractAttempts_congr (a b : Nat → Option (List (List String))) :
    ∀ r k, (∀ j, k ≤ j → j < k + r → a j = b j) →
      extractAttempts a r k = extractAttempts b r k := by
  intro r
  induction r with
  | zero => intro k _; rfl
  | succ r ih =>
    intro k h
    have hk := h k le_rfl (by omega)
    rw [extractAttempts, extractAttempts, hk]
    cases hbk : b k with
    | some rows => rfl
    | none =>
      exact ih (k + 1) (fun j h1 h2 => h j (by omega) (by omega))

theorem extractAttempts_all_stale (a : Nat → Option (List (List String))) :
    ∀ r k, (∀ j, k ≤ j → j < k + r → a j = none) →
      extractAttempts a r k = none := by
  intro r
  induction r with
  | zero => intro k _; rfl
  | succ r ih =>
    intro k h
    rw [extractAttempts, h k le_rfl (by omega)]
    exact ih (k + 1) (fun j h1 h2 => h j (by omega) (by omega))

/-- C10 (amended): `extract_visible_rows` consults exactly its first five
attempts — two attempt streams agreeing below index 5 give the same result,
and a success at attempt index 4 is still returned — and when all five go
stale it returns `None` (no exception, and not an empty list). The caller
that takes `len` of the result (the zero-row visibility check) then raises
a `TypeError`; but `scrape_data`'s `pd.DataFrame(new_rows, ...)` accepts
the `None` and builds an empty frame — it does not fail with a type
error. -/
theorem c10_stale_retry (a b : Nat → Option (List (List String)))
    (rows : List (List String))
    (hagree : ∀ k, k < 5 → a k = b k) (hstale : ∀ k, k < 5 → a k = none) :
    extract_visible_rows a = extract_visible_rows b ∧
      extract_visible_rows a = none ∧
      pyLen (extract_visible_rows a) = Except.error PyExn.typeError ∧
      pdDataFrame (extract_visible_rows a) = Except.ok [] ∧
      extract_visible_rows (fun k => if k = 4 then some rows else none)
        = some (pyExtract rows) := by
  have hnone : extract_visible_rows a = none :=
    extractAttempts_all_stale a 5 0 (fun j _ h2 => hstale j (by omega))
  refine ⟨?_, hnone, ?_, ?_, ?_⟩
  · exact extractAttempts_congr a b 5 0 (fun j _ h2 => hagree j (by omega))
  · rw [hnone]; rfl
  · rw [hnone]; rfl
  · rfl

/-- Counterexample to C10 as stated: with the all-stale read, `scrape_data`
does not fail with a type error when it builds its DataFrame — pandas
accepts `None` as "no data" and yields the empty frame, and the
accumulation loop keeps running normally through such reads (two cycles
shown, no exception and no result yet). -/
theorem c10_counterexample :
    pdDataFrame (extract_visible_rows allStale) = Except.ok [] ∧
      extract_visible_rows allStale = none ∧
      scrapeGo allStale stallScroll 2 0 [["r1"]] 5 = none := by
  refine ⟨rfl, rfl, by decide⟩

/-- Witness for C10: the all-stale stream against one that would succeed
from attempt 5 on — the results agree (only five attempts are made), the
value is `None`, `len` of it is a `TypeError`, the DataFrame construction
is not, and a success at the fifth attempt (index 4) is returned. -/
theorem c10_witness :
    extract_visible_rows allStale = extract_visible_rows lateRaw ∧
      extract_visible_rows allStale = none ∧
      pyLen (extract_visible_rows allStale) = Except.error PyExn.typeError ∧
      pdDataFrame (extract_visible_rows allStale) = Except.ok [] ∧
      extract_visible_rows (fun k => if k = 4 then some staticRows else none)
        = some (pyExtract staticRows) :=
  c10_stale_retry allStale lateRaw staticRows
    (fun k hk => by simp [allStale, lateRaw, hk])
    (fun k _ => rfl)
